import Mathlib

/-!
Shallow embedding of the influxdb-relay HTTP write path (relay/points.go):
the batching and splitting function parseRequest, the metric translator
GraphiteMetric with its per-measurement helpers, the response
reconciliation protocol of ServeHTTP, and the header handling and
metering update of the write handler.

Go byte strings are modelled as lists of byte values; Go maps as
association lists with first-match lookup and the Go zero-value
convention for missing keys.
-/

namespace Relay

/-- Go byte strings (and Go `string`, which is an arbitrary byte sequence)
are modelled as lists of byte values, each < 256. -/
abbrev Bytes := List Nat

/-- A continuation byte of a UTF-8 sequence: 0x80..0xBF. -/
def contByte (b : Nat) : Bool := 0x80 ≤ b && b ≤ 0xBF

/-- First-byte classification of Go `unicode/utf8`: for a leading byte,
the total sequence size and the accepted range of the second byte
(Go's `acceptRanges` table). `none` means an invalid leading byte. -/
def firstByteInfo (b : Nat) : Option (Nat × Nat × Nat) :=
  if b < 0x80 then some (1, 0, 0)
  else if 0xC2 ≤ b && b ≤ 0xDF then some (2, 0x80, 0xBF)
  else if b = 0xE0 then some (3, 0xA0, 0xBF)
  else if 0xE1 ≤ b && b ≤ 0xEC then some (3, 0x80, 0xBF)
  else if b = 0xED then some (3, 0x80, 0x9F)
  else if 0xEE ≤ b && b ≤ 0xEF then some (3, 0x80, 0xBF)
  else if b = 0xF0 then some (4, 0x90, 0xBF)
  else if 0xF1 ≤ b && b ≤ 0xF3 then some (4, 0x80, 0xBF)
  else if b = 0xF4 then some (4, 0x80, 0x8F)
  else none

/-- `utf8.ValidString` of the Go standard library: the byte sequence is a
well-formed UTF-8 encoding (no overlong forms, no surrogates, nothing
above U+10FFFF), checked sequence by sequence. -/
def utf8Valid : Bytes → Bool
  | [] => true
  | b :: rest =>
    match firstByteInfo b with
    | none => false
    | some (1, _, _) => utf8Valid rest
    | some (2, lo, hi) =>
      match rest with
      | b1 :: t => lo ≤ b1 && b1 ≤ hi && utf8Valid t
      | [] => false
    | some (3, lo, hi) =>
      match rest with
      | b1 :: b2 :: t => (lo ≤ b1 && b1 ≤ hi) && contByte b2 && utf8Valid t
      | _ => false
    | some (_, lo, hi) =>
      match rest with
      | b1 :: b2 :: b3 :: t =>
          (lo ≤ b1 && b1 ≤ hi) && contByte b2 && contByte b3 && utf8Valid t
      | _ => false

/-- Decimal digits of a natural number, as ASCII bytes (most significant
first); helper for `formatInt`. The fuel argument (any value ≥ n works,
`natDecimal` passes n itself) keeps the recursion structural so that the
definition evaluates inside the kernel. -/
def natDecimalAux : Nat → Nat → Bytes
  | 0, n => [48 + n % 10]
  | fuel + 1, n =>
    if n < 10 then [48 + n] else natDecimalAux fuel (n / 10) ++ [48 + n % 10]

/-- Decimal digits of a natural number, as ASCII bytes. -/
def natDecimal (n : Nat) : Bytes := natDecimalAux n n

/-- `strconv.FormatInt(v, 10)` of the Go standard library, as ASCII bytes. -/
def formatInt (i : Int) : Bytes :=
  if i < 0 then 45 :: natDecimal i.natAbs else natDecimal i.toNat

/-- `strings.TrimSuffix(s, suffix)` of the Go standard library: remove one
trailing occurrence of `suffix` when present. -/
def trimSuffix (s suffix : Bytes) : Bytes :=
  if suffix.isSuffixOf s then s.take (s.length - suffix.length) else s

/-- An IEEE-754 double, identified by its 64 bit pattern. Its textual form
under `strconv.FormatFloat(v, 'E', -1, 64)` is supplied as an explicit
formatting parameter to the functions that serialize it. -/
structure GoFloat where
  bits : Nat
deriving DecidableEq

/-- The value of one field as seen through `models.FieldIterator` in
`parseRequest`: only `models.Float` and `models.Integer` are serialized,
every other field type falls to the `default: continue` branch. -/
inductive GoFieldVal where
  | float (v : GoFloat)
  | integer (v : Int)
  | otherType
deriving DecidableEq

/-- One field of a parsed point: the field key bytes (`f.FieldKey()`)
and its typed value. -/
structure GoField where
  key : Bytes
  val : GoFieldVal
deriving DecidableEq

/-- One parsed influxdb point as consumed by `parseRequest`: the
serialized measurement-and-tags key (`p.Key()`), the fields in iterator
order, and `p.UnixNano()`. -/
structure GoPoint where
  key : Bytes
  fields : List GoField
  unixNano : Int
deriving DecidableEq

/-- The field loop of `parseRequest` (the `for f.Next()` loop): returns
`numOfFields` together with the accumulated `field + ","` segments that
the loop appends to `newLine`. A field contributes exactly when it is a
float or an integer whose key is valid UTF-8; all other fields hit a
`continue`. `fmtFloat` is the textual form of `strconv.FormatFloat`. -/
def countFields (fmtFloat : GoFloat → Bytes) : List GoField → Nat × Bytes
  | [] => (0, [])
  | f :: rest =>
    let (n, acc) := countFields fmtFloat rest
    match f.val with
    | .float v =>
      if utf8Valid f.key then
        (n + 1, (f.key ++ [61] ++ fmtFloat v ++ [44]) ++ acc)
      else (n, acc)
    | .integer v =>
      if utf8Valid f.key then
        (n + 1, (f.key ++ [61] ++ formatInt v ++ [44]) ++ acc)
      else (n, acc)
    | .otherType => (n, acc)

/-- `numOfFields` of a point (the number of datapoints it contributes). -/
def pointN (fmtFloat : GoFloat → Bytes) (p : GoPoint) : Nat :=
  (countFields fmtFloat p.fields).1

/-- The finished `newLine` for a point with at least one counted field:
`measurementAndTags + " "` then the `field + ","` segments, then
`strings.TrimSuffix(newLine, ",") + " " + strconv.FormatInt(p.UnixNano(), 10) + "\n"`. -/
def mkLine (fmtFloat : GoFloat → Bytes) (p : GoPoint) : Bytes :=
  trimSuffix (p.key ++ [32] ++ (countFields fmtFloat p.fields).2) [44]
    ++ [32] ++ formatInt p.unixNano ++ [10]

/-- A batch under construction or emitted: its bytes, instrumented with
the number of datapoints it holds (the instrumentation mirrors the
`datapointsLeft` arithmetic and is used only to state properties). -/
structure Batch where
  bytes : Bytes
  count : Nat
deriving DecidableEq

/-- The loop state of `parseRequest`: emitted batches (`*outBytes`), the
`linesToSend` accumulator with its datapoint count, `datapointsLeft`,
and `totalDatapoints`. -/
structure PRState where
  out : List Batch
  cur : Bytes
  curN : Nat
  left : Int
  total : Nat
deriving DecidableEq

/-- Initial state of the loop: `datapointsLeft := splitRequestPerDatapoints`,
empty `linesToSend`, no batches, zero total. -/
def prInit (split : Int) : PRState :=
  { out := [], cur := [], curN := 0, left := split, total := 0 }

/-- The body of the `for _, p := range points` loop of `parseRequest`:
skip the point when `numOfFields == 0`; otherwise either extend
`linesToSend` when `datapointsLeft-numOfFields >= 0`, or flush the
current `linesToSend` into `*outBytes` and restart it with this line. -/
def prStep (fmtFloat : GoFloat → Bytes) (split : Int) (st : PRState)
    (p : GoPoint) : PRState :=
  let n := pointN fmtFloat p
  if n = 0 then st
  else
    let line := mkLine fmtFloat p
    if st.left - (n : Int) ≥ 0 then
      { out := st.out, cur := st.cur ++ line, curN := st.curN + n,
        left := st.left - (n : Int), total := st.total + n }
    else
      { out := st.out ++ [⟨st.cur, st.curN⟩], cur := line, curN := n,
        left := split - (n : Int), total := st.total + n }

/-- The epilogue of `parseRequest`: `if len(linesToSend) > 0` append the
final accumulator to `*outBytes`. -/
def prFinal (st : PRState) : List Batch :=
  if st.cur.length > 0 then st.out ++ [⟨st.cur, st.curN⟩] else st.out

/-- `parseRequest` of relay/points.go (instrumented form): returns the
emitted batches (each with its datapoint count) and `totalDatapoints`.
The `metricsMap` out-parameter of the source is write-only state used
for a log line and is not modelled. -/
def parseRequestB (fmtFloat : GoFloat → Bytes) (split : Int)
    (points : List GoPoint) : List Batch × Nat :=
  let st := points.foldl (prStep fmtFloat split) (prInit split)
  (prFinal st, st.total)

/-- `parseRequest` as the source exposes it: the `*outBytes` payloads
and `totalDatapoints`. -/
def parseRequest (fmtFloat : GoFloat → Bytes) (split : Int)
    (points : List GoPoint) : List Bytes × Nat :=
  let (bs, n) := parseRequestB fmtFloat split points
  (bs.map Batch.bytes, n)

/-- The serialized lines of the points that contribute at least one
datapoint, in source order: what the emitted batches concatenate to. -/
def contribLines (fmtFloat : GoFloat → Bytes) (points : List GoPoint) : List Bytes :=
  (points.filter (fun p => pointN fmtFloat p ≠ 0)).map (mkLine fmtFloat)

/-! ## The metric translator (GraphiteMetric and its helpers) -/

/-- Go map[string]string, modelled as an association list with
first-match lookup; a missing key yields the Go zero value `""`. -/
abbrev Tags := List (String × String)

/-- Go map read `tags[k]` (zero value for a missing key). -/
def tagsGet (ts : Tags) (k : String) : String :=
  match ts.find? (fun e => e.1 == k) with
  | some e => e.2
  | none => ""

/-- The character class `[a-zA-Z0-9]` of the two regexes in parseCPU. -/
def isAlnumGo (c : Char) : Bool :=
  ('a' ≤ c && c ≤ 'z') || ('A' ≤ c && c ≤ 'Z') || ('0' ≤ c && c ≤ '9')

/-- The character class `[cpu-]`, i.e. one of the characters c, p, u, -. -/
def classCPUDash (c : Char) : Bool :=
  c = 'c' || c = 'p' || c = 'u' || c = '-'

/-- Largest index of `l` whose entry satisfies `p`. -/
def lastIdxSat (p : Char → Bool) (l : List Char) : Option Nat :=
  match l.reverse.findIdx? p with
  | some k => some (l.length - 1 - k)
  | none => none

/-- Capture group of `regexp.FindStringSubmatch` for the pattern
`.*[cpu-](.*[a-zA-Z0-9])` (leftmost match, greedy quantifiers): the
leading greedy `.*` picks the largest position `i` whose character lies
in `[cpu-]` and is followed by at least one alphanumeric character, and
the greedy capture group then extends through the last alphanumeric
character `j`; the capture is `s[i+1 .. j+1)`. `none` when there is no
match (`len(match) == 0` in the source). -/
def cpuTagCapture (s : List Char) : Option (List Char) :=
  match lastIdxSat isAlnumGo s with
  | none => none
  | some j =>
    match lastIdxSat classCPUDash (s.take j) with
    | none => none
    | some i => some ((s.take (j + 1)).drop (i + 1))

/-- Capture group of `regexp.FindStringSubmatch` for the pattern
`usage_(.*[a-zA-Z0-9])`: the leftmost occurrence `p` of the literal
`usage_` that is followed by at least one alphanumeric character, with
the greedy capture extending through the last alphanumeric character
`j`; the capture is `s[p+6 .. j+1)`. -/
def usageCapture (s : List Char) : Option (List Char) :=
  match lastIdxSat isAlnumGo s with
  | none => none
  | some j =>
    match (List.range s.length).find?
        (fun p => ("usage_".toList.isPrefixOf (s.drop p)) && p + 6 ≤ j) with
    | none => none
    | some p => some ((s.take (j + 1)).drop (p + 6))

/-- `cpuTagCapture` on Lean strings. -/
def cpuTagMatch (s : String) : Option String :=
  (cpuTagCapture s.toList).map List.asString

/-- `usageCapture` on Lean strings. -/
def usageMatch (s : String) : Option String :=
  (usageCapture s.toList).map List.asString

/-- parseCPU of relay/points.go. The one-entry `parsedMetric` map is
modelled as its single key-value pair; `(none, "")` is the
`return nil, ""` drop taken when the cpu tag does not match the regex. -/
def parseCPU {α : Type} (tags : Tags) (field : String) (value : α) :
    Option (String × α) × String :=
  match cpuTagMatch (tagsGet tags "cpu") with
  | none => (none, "")
  | some cpuFix =>
    let metricNameFixed :=
      if cpuFix = "total" then "cpu_extra.total" else "cpu" ++ "." ++ cpuFix
    let fieldFix0 :=
      match usageMatch field with
      | some m => m
      | none => field
    let fieldFix :=
      match fieldFix0 with
      | "iowait" => "wait"
      | "irq" => "interrupt"
      | _ => fieldFix0
    let parsedMetric := some (fieldFix, value)
    match fieldFix with
    | "idle" | "interrupt" | "nice" | "softirq"
    | "steal" | "system" | "user" | "wait" =>
      (parsedMetric, metricNameFixed)
    | _ => (parsedMetric, "cpu_extra")

/-- parseMem of relay/points.go. -/
def parseMem {α : Type} (_tags : Tags) (field : String) (value : α) :
    Option (String × α) × String :=
  let parsedMetric := some (field, value)
  match field with
  | "buffered" | "cached" | "free" | "slab_recl" | "slab_unrecl" | "used" =>
    (parsedMetric, "memory")
  | _ => (parsedMetric, "memory_extra")

/-- parseSystem of relay/points.go. -/
def parseSystem {α : Type} (_tags : Tags) (field : String)
    (metricName : String) (value : α) : Option (String × α) × String :=
  match field with
  | "load1" => (some ("shortterm", value), "load")
  | "load5" => (some ("midterm", value), "load")
  | "load15" => (some ("longterm", value), "load")
  | _ => (some (field, value), metricName)

/-- parseSwap of relay/points.go (returns only the parsed metric). -/
def parseSwap {α : Type} (_tags : Tags) (field : String) (value : α) :
    Option (String × α) :=
  match field with
  | "in" => some ("swap_io.in", value)
  | "out" => some ("swap_io.out", value)
  | _ => some (field, value)

/-- parseNet of relay/points.go. -/
def parseNet {α : Type} (tags : Tags) (field : String) (value : α) :
    Option (String × α) × String :=
  if tagsGet tags "interface" = "all" then (none, "interface")
  else
    match field with
    | "bytes_recv" =>
      (some ("rx", value), "interface" ++ "." ++ tagsGet tags "interface" ++ ".if_octets")
    | "bytes_sent" =>
      (some ("tx", value), "interface" ++ "." ++ tagsGet tags "interface" ++ ".if_octets")
    | "packets_recv" =>
      (some ("rx", value), "interface" ++ "." ++ tagsGet tags "interface" ++ ".if_packets")
    | "packets_sent" =>
      (some ("tx", value), "interface" ++ "." ++ tagsGet tags "interface" ++ ".if_packets")
    | "err_in" =>
      (some ("rx", value), "interface" ++ "." ++ tagsGet tags "interface" ++ ".if_errors")
    | "err_out" =>
      (some ("tx", value), "interface" ++ "." ++ tagsGet tags "interface" ++ ".if_errors")
    | _ => (some (field, value), "interface")

/-- parseDiskio of relay/points.go. -/
def parseDiskio {α : Type} (tags : Tags) (field : String) (value : α) :
    Option (String × α) × String :=
  match field with
  | "write_time" => (some ("write", value), "disk." ++ tagsGet tags "name" ++ ".disk_time")
  | "read_time" => (some ("read", value), "disk." ++ tagsGet tags "name" ++ ".disk_time")
  | "write_bytes" => (some ("write", value), "disk." ++ tagsGet tags "name" ++ ".disk_octets")
  | "read_bytes" => (some ("read", value), "disk." ++ tagsGet tags "name" ++ ".disk_octets")
  | _ => (some (field, value), "disk_extra." ++ tagsGet tags "name")

/-- The telegraf metric built by `metric.New` in GraphiteMetric: name,
tag map, field map (always a one-entry map here) and the second-precision
time `time.Unix(timestamp/1000000000, 0)`. -/
structure TMetric (α : Type) where
  name : String
  tags : Tags
  fields : List (String × α)
  timeSec : Int
deriving DecidableEq

/-- GraphiteMetric of relay/points.go: dispatch on the measurement name,
then build the telegraf metric with the single tag
`{"id": tags["machine_id"]}` when the parsed metric is not nil. Go
integer division truncates toward zero, hence `Int.tdiv`. -/
def GraphiteMetric {α : Type} (metricName : String) (tags : Tags)
    (timestamp : Int) (value : α) (field : String) : Option (TMetric α) :=
  let pr : Option (String × α) × String :=
    if metricName = "cpu" then parseCPU tags field value
    else if metricName = "disk" then
      (some (field, value), "df." ++ tagsGet tags "device" ++ ".df_complex")
    else if metricName = "diskio" then parseDiskio tags field value
    else if metricName = "net" then parseNet tags field value
    else if metricName = "mem" then parseMem tags field value
    else if metricName = "system" then parseSystem tags field metricName value
    else if metricName = "swap" then (parseSwap tags field value, metricName)
    else (some (field, value), metricName)
  match pr.1 with
  | some kv =>
    some { name := pr.2, tags := [("id", tagsGet tags "machine_id")],
           fields := [kv], timeSec := Int.tdiv timestamp 1000000000 }
  | none => none

/-- The measurement names with a dedicated case in GraphiteMetric. -/
def recognizedMeasurements : List String :=
  ["cpu", "disk", "diskio", "net", "mem", "system", "swap"]

/-! ## Response reconciliation -/

/-- responseData of relay/points.go. -/
structure RespData where
  contentType : String
  contentEncoding : String
  statusCode : Nat
  body : Bytes
deriving DecidableEq

/-- A write to the original caller. -/
inductive Reply where
  | jsonErr (code : Nat) (message : String)
  | status (code : Nat)
  | pass (r : RespData)
deriving DecidableEq

/-- Whether HandleResponse fires the sync.Once for this response: the
switch on `rd.StatusCode / 100` hits case 2 or case 4. -/
def qualifies (r : RespData) : Bool :=
  r.statusCode / 100 == 2 || r.statusCode / 100 == 4

/-- The caller-visible reply produced by the reconciliation protocol of
ServeHTTP (the drain loop over the responses channel together with
HandleResponse) for a given completion order of the backend responses,
with `ignoreResponses == false`: the first response whose status is 2xx
or 4xx wins through the sync.Once (a 2xx as a bare no-content header, a
4xx passed through with `rd.Write`); if none qualifies, the drain loop
keeps the last response seen in `errResponse` and writes it back after
all attempts finish; if no response ever arrived, jsonError 503. Racing
HandleResponse calls are modelled as executing in completion order. -/
def reconcile (rs : List RespData) : Reply :=
  match rs.find? qualifies with
  | some r => if r.statusCode / 100 == 2 then .status 204 else .pass r
  | none =>
    match rs.getLast? with
    | some r => .pass r
    | none => .jsonErr 503 "unable to write points"

/-! ## The write handler around the fan-out -/

/-- Go http.Header: a map from header name to a slice of values; a
missing key reads as the nil slice, modelled as `[]`. -/
abbrev Headers := List (String × List String)

/-- Go map read `r.Header[k]` (nil slice for a missing key). -/
def headersGet (hs : Headers) (k : String) : List String :=
  match hs.find? (fun e => e.1 == k) with
  | some e => e.2
  | none => []

/-- The metering map `map[string]map[string]int`, keyed by org id then
machine id. -/
abbrev Metering := List (String × List (String × Int))

/-- Go map update: replace the first binding of `k`, or append one. -/
def listSet {β : Type} : List (String × β) → String → β → List (String × β)
  | [], k, v => [(k, v)]
  | e :: rest, k, v => if e.1 == k then (k, v) :: rest else e :: listSet rest k v

/-- Go map read with existence: `v, ok := m[k]`. -/
def listGet {β : Type} (l : List (String × β)) (k : String) : Option β :=
  (l.find? (fun e => e.1 == k)).map (·.2)

/-- The metering update of ServeHTTP: create the inner map when the
org key is absent, then set or increment the machine counter by
`len(points)`. -/
def meteringAdd (mm : Metering) (org mach : String) (n : Int) : Metering :=
  let inner :=
    match listGet mm org with
    | some i => i
    | none => []
  let inner' :=
    match listGet inner mach with
    | some v => listSet inner mach (v + n)
    | none => listSet inner mach n
  listSet mm org inner'

/-- The counter value at (org, machine), a missing entry counting as 0. -/
def meteringVal (mm : Metering) (org mach : String) : Int :=
  match listGet mm org with
  | none => 0
  | some inner =>
    match listGet inner mach with
    | none => 0
    | some v => v

/-- The source-type read of ServeHTTP:
`sourceType := "unix"; if r.Header["X-Gocky-Tag-Source-Type"][0] == "windows" { sourceType = "windows" }`.
Indexing `[0]` of the nil slice returned for an absent header panics
with an index-out-of-range runtime error; the panic is modelled as
`none`. -/
def computeSourceType (hdrs : Headers) : Option String :=
  match headersGet hdrs "X-Gocky-Tag-Source-Type" with
  | [] => none
  | v :: _ => some (if v == "windows" then "windows" else "unix")

/-- One delivery attempt dispatched by the fan-out loop. -/
inductive Dispatch where
  | influx (backend : String) (payload : Bytes)
  | graphiteStream (backend : String)
deriving DecidableEq

/-- A configured backend: name and backend kind. -/
structure BackendCfg where
  name : String
  backendType : String
deriving DecidableEq

/-- The relay configuration fields consumed by the modelled part of
ServeHTTP. -/
structure RelayCfg where
  maxDatapointsPerRequest : Int
  splitRequestPerDatapoints : Int
  dropUnauthorized : Bool
  enableMetering : Bool
  itsAllGoodMan : Bool
  backends : List BackendCfg
deriving DecidableEq

/-- The observable outcome of the modelled handler section: the writes
to the caller in program order (reconciliation writes excluded), the
dispatched delivery attempts, the metering map after the request, the
source type in use, and whether the handler panicked. -/
structure ServeOut where
  replies : List Reply
  dispatches : List Dispatch
  metering : Metering
  sourceType : Option String
  faulted : Bool
deriving DecidableEq

/-- The backend loop of ServeHTTP: for an influxdb backend, fail the
request with a 400 when the `db` query parameter is missing (dispatches
already launched keep running), otherwise launch one delivery per split
batch; for a graphite backend, push one translated stream; an unknown
backend type only logs. -/
def fanout (dbParam : String) (outBytes : List Bytes) :
    List BackendCfg → List Dispatch → List Dispatch × Option Reply
  | [], acc => (acc, none)
  | b :: rest, acc =>
    if b.backendType == "influxdb" then
      if dbParam == "" then (acc, some (.jsonErr 400 "missing parameter: db"))
      else fanout dbParam outBytes rest
        (acc ++ outBytes.map (fun o => .influx b.name o))
    else if b.backendType == "graphite" then
      fanout dbParam outBytes rest (acc ++ [.graphiteStream b.name])
    else fanout dbParam outBytes rest acc

/-- ServeHTTP from the call to parseRequest through the backend fan-out
loop, for a request that already passed the path, method, body and
point-parse stages. Abstracted: goroutine scheduling, the actual HTTP
posts, buffer pooling and logging; the graphite connect and re-parse are
assumed to succeed (the connect failure path calls log.Fatalf, which
aborts the process). `faulted` records the nil-slice index panic in the
source-type header read, which strikes after the metering update. -/
def serveWrite (cfg : RelayCfg) (hdrs : Headers) (dbParam : String)
    (fmtFloat : GoFloat → Bytes) (points : List GoPoint) (mm : Metering) :
    ServeOut :=
  let pr := parseRequest fmtFloat cfg.splitRequestPerDatapoints points
  let outB := pr.1
  let totalDatapoints : Int := (pr.2 : Int)
  let machHdr := headersGet hdrs "X-Gocky-Tag-Machine-Id"
  if machHdr = [] ∧ cfg.dropUnauthorized then
    { replies := [.jsonErr 403 "cannot find Gocky headers"], dispatches := [],
      metering := mm, sourceType := none, faulted := false }
  else
    let machineID := machHdr.headD ""
    if cfg.maxDatapointsPerRequest > 0 ∧
        totalDatapoints > cfg.maxDatapointsPerRequest then
      { replies := [.status 204], dispatches := [], metering := mm,
        sourceType := none, faulted := false }
    else
      let orgHdr := headersGet hdrs "X-Gocky-Tag-Org-Id"
      let orgID := if orgHdr = [] then "Unauthorized" else orgHdr.headD ""
      let mm' :=
        if cfg.enableMetering then meteringAdd mm orgID machineID points.length
        else mm
      match computeSourceType hdrs with
      | none =>
        { replies := [], dispatches := [], metering := mm',
          sourceType := none, faulted := true }
      | some st =>
        let ignoreResponses :=
          cfg.itsAllGoodMan ∨
            cfg.backends.any (fun b => b.backendType == "graphite")
        let replies0 : List Reply := if ignoreResponses then [.status 204] else []
        let fo := fanout dbParam outB cfg.backends []
        { replies := replies0 ++ (match fo.2 with | some r => [r] | none => []),
          dispatches := fo.1, metering := mm', sourceType := some st,
          faulted := false }

/-! ## The gzip stage of ServeHTTP -/

/-- The gzip branch of ServeHTTP: when Content-Encoding is gzip, replace
the body reader by a gzip reader. `gzip.NewReader` reads the gzip header
immediately; on a malformed body it returns a nil reader and an error,
and the handler writes a 400 JSON error but, lacking a `return`,
continues with the nil reader (modelled as body `none`). A successful
decode is abstracted as the decoded bytes. -/
def gzipBody (contentEncoding : String) (decoded : Option Bytes)
    (raw : Bytes) : List Reply × Option Bytes :=
  if contentEncoding == "gzip" then
    match decoded with
    | some b => ([], some b)
    | none => ([.jsonErr 400 "unable to decode gzip body"], none)
  else ([], some raw)

/-- `bodyBuf.ReadFrom(body)` directly after the gzip stage: reading from
the nil gzip reader left behind by a failed decode dereferences a nil
pointer and panics; the panic is modelled as the error case. -/
def readBody : Option Bytes → Except Unit Bytes
  | none => .error ()
  | some b => .ok b

/-! ## Auxiliary definitions used to state the theorems -/

/-- Whether one field passes the filter of the field loop of
parseRequest: a float or integer value whose key is valid UTF-8. -/
def numericWithValidKey (f : GoField) : Bool :=
  match f.val with
  | .float _ => utf8Valid f.key
  | .integer _ => utf8Valid f.key
  | .otherType => false

/-- All bytes held by a loop state of parseRequest: the emitted batches
in order, then the current accumulator. -/
def stBytes (st : PRState) : Bytes := (st.out.map Batch.bytes).flatten ++ st.cur

/-- The sum of the datapoint counts held by a loop state. -/
def stCount (st : PRState) : Nat := (st.out.map Batch.count).sum + st.curN

/-- Invariant of the batching loop under the split threshold `kn` when
every point contributes at most one datapoint: `datapointsLeft` mirrors
the datapoints held by the current accumulator, the accumulator is
nonempty exactly when it holds datapoints, every emitted batch is
exactly full and nonempty, and the running total counts emitted plus
current datapoints. -/
def PRInv (kn : Nat) (st : PRState) : Prop :=
  st.left = (kn : Int) - (st.curN : Int) ∧
  st.curN ≤ kn ∧
  (st.cur = [] ↔ st.curN = 0) ∧
  (∀ b ∈ st.out, b.count = kn ∧ b.bytes ≠ []) ∧
  st.total = kn * st.out.length + st.curN

/-- A backend response with the given status code and empty metadata. -/
def resp (code : Nat) : RespData := ⟨"", "", code, []⟩

/-- A float formatter for concrete instances (the concrete points below
carry only integer fields, so it is never consulted). -/
def fmt0 : GoFloat → Bytes := fun _ => []

/-- A concrete point with two integer fields under valid one-byte keys:
it contributes two datapoints. -/
def twoFieldPt (k : Nat) : GoPoint :=
  ⟨[k], [⟨[97], .integer 1⟩, ⟨[98], .integer 2⟩], 0⟩

/-- A concrete point with one integer field under a valid one-byte key:
it contributes one datapoint. -/
def oneFieldPt (k : Nat) : GoPoint := ⟨[k], [⟨[97], .integer 1⟩], 0⟩

/-- A concrete point with no numeric field under a valid UTF-8 key: a
string-typed field and a float field whose key byte 0xFF is not valid
UTF-8. It contributes no datapoint. -/
def noNumPt : GoPoint := ⟨[110], [⟨[99], .otherType⟩, ⟨[255], .float ⟨0⟩⟩], 0⟩

/-! ## Theorems -/

/-- C3: for every value and every tag set whose cpu tag is "cpu-total",
the translator on measurement "cpu" and field "usage_idle" produces a
metric in the fixed aggregate namespace "cpu_extra.total" — never the
generic "cpu_extra" bucket and never a drop — with the field renamed
to "idle". -/
theorem C3_cpu_total_idle {α : Type} (v : α) (tags : Tags) (ts : Int)
    (h : tagsGet tags "cpu" = "cpu-total") :
    GraphiteMetric "cpu" tags ts v "usage_idle"
      = some { name := "cpu_extra.total",
               tags := [("id", tagsGet tags "machine_id")],
               fields := [("idle", v)],
               timeSec := Int.tdiv ts 1000000000 }
      ∧ "cpu_extra.total" ≠ "cpu_extra" := by
  constructor
  · unfold GraphiteMetric parseCPU
    rw [if_pos rfl, h]
    rfl
  · decide

/-- Witness for C3 at a concrete tag set and value. -/
theorem C3_cpu_total_idle_witness :
    GraphiteMetric "cpu" [("cpu", "cpu-total")] 0 (0 : Int) "usage_idle"
      = some { name := "cpu_extra.total",
               tags := [("id", tagsGet [("cpu", "cpu-total")] "machine_id")],
               fields := [("idle", 0)],
               timeSec := Int.tdiv 0 1000000000 }
      ∧ "cpu_extra.total" ≠ "cpu_extra" :=
  C3_cpu_total_idle 0 [("cpu", "cpu-total")] 0 rfl

/-- The default branch of GraphiteMetric: a measurement without a
dedicated case passes through with name and field unchanged. -/
theorem graphiteMetric_default {α : Type} (mn : String) (tags : Tags)
    (ts : Int) (v : α) (field : String) (h : mn ∉ recognizedMeasurements) :
    GraphiteMetric mn tags ts v field
      = some { name := mn, tags := [("id", tagsGet tags "machine_id")],
               fields := [(field, v)], timeSec := Int.tdiv ts 1000000000 } := by
  simp only [recognizedMeasurements, List.mem_cons, List.not_mem_nil, or_false,
    not_or] at h
  obtain ⟨h1, h2, h3, h4, h5, h6, h7⟩ := h
  simp [GraphiteMetric, h1, h2, h3, h4, h5, h6, h7]

/-- C7: for any input point whose measurement is not one of the
recognized measurements (cpu, disk, diskio, net, mem, system, swap),
the translator returns a metric — never nil — whose measurement name
and field name are unchanged from the input. -/
theorem C7_unrecognized_passthrough {α : Type} (mn : String) (tags : Tags)
    (ts : Int) (v : α) (field : String) (h : mn ∉ recognizedMeasurements) :
    GraphiteMetric mn tags ts v field
      = some { name := mn, tags := [("id", tagsGet tags "machine_id")],
               fields := [(field, v)], timeSec := Int.tdiv ts 1000000000 } :=
  graphiteMetric_default mn tags ts v field h

/-- Witness for C7 at the concrete measurement "foo". -/
theorem C7_unrecognized_passthrough_witness :
    GraphiteMetric "foo" [("machine_id", "m1")] 7 (3 : Int) "f"
      = some { name := "foo", tags := [("id", "m1")],
               fields := [("f", 3)], timeSec := 0 } :=
  C7_unrecognized_passthrough "foo" [("machine_id", "m1")] 7 3 "f" (by decide)

/-- C8 as stated is false: the translator output carries a single "id"
tag and no "machine_id" tag, so re-running the translator on its own
output rebuilds the identity tag as the empty string. At measurement
"foo" with machine_id tag "m1", the first run tags the metric with
id = "m1", while the second run (fed the output name, tags and time)
tags it with id = "", so the second output differs from the first. -/
theorem C8_counterexample :
    GraphiteMetric "foo" [("machine_id", "m1")] 0 (1 : Int) "f"
      = some ⟨"foo", [("id", "m1")], [("f", 1)], 0⟩
    ∧ GraphiteMetric "foo" [("id", "m1")] (0 * 1000000000) (1 : Int) "f"
      = some ⟨"foo", [("id", "")], [("f", 1)], 0⟩
    ∧ (⟨"foo", [("id", "")], [("f", 1)], 0⟩ : TMetric Int)
        ≠ ⟨"foo", [("id", "m1")], [("f", 1)], 0⟩ := by
  refine ⟨by decide, by decide, by decide⟩

/-- C8 amended: for a non-recognized measurement, re-running the
translator on its own output preserves the measurement name, the field
map and the time, and is a full no-op exactly when the machine_id tag
of the original input is empty — the output carries an "id" tag but no
"machine_id" tag, so the rebuilt identity tag degrades to "". -/
theorem C8_idempotent_up_to_id_tag {α : Type} (mn : String) (tags : Tags)
    (ts : Int) (v : α) (field : String) (h : mn ∉ recognizedMeasurements) :
    ∃ m m' : TMetric α,
      GraphiteMetric mn tags ts v field = some m ∧
      m.fields = [(field, v)] ∧
      GraphiteMetric m.name m.tags (m.timeSec * 1000000000) v field = some m' ∧
      m'.name = m.name ∧ m'.fields = m.fields ∧ m'.timeSec = m.timeSec ∧
      (tagsGet tags "machine_id" = "" → m' = m) := by
  have hmid : tagsGet [("id", tagsGet tags "machine_id")] "machine_id" = "" := rfl
  have hq : Int.tdiv (Int.tdiv ts 1000000000 * 1000000000) 1000000000
      = Int.tdiv ts 1000000000 := Int.mul_tdiv_cancel _ (by norm_num)
  refine ⟨{ name := mn, tags := [("id", tagsGet tags "machine_id")],
            fields := [(field, v)], timeSec := Int.tdiv ts 1000000000 },
          { name := mn, tags := [("id", "")],
            fields := [(field, v)], timeSec := Int.tdiv ts 1000000000 },
          graphiteMetric_default mn tags ts v field h, rfl, ?_, rfl, rfl, rfl, ?_⟩
  · have e2 := graphiteMetric_default mn [("id", tagsGet tags "machine_id")]
      (Int.tdiv ts 1000000000 * 1000000000) v field h
    rw [hmid, hq] at e2
    exact e2
  · intro h0
    rw [h0]

/-- Witness for C8 (amended) at measurement "foo" with an empty tag
set, where the machine_id tag is empty and re-running is a no-op. -/
theorem C8_idempotent_up_to_id_tag_witness :
    ∃ m m' : TMetric Int,
      GraphiteMetric "foo" [] 0 (2 : Int) "f" = some m ∧
      m.fields = [("f", 2)] ∧
      GraphiteMetric m.name m.tags (m.timeSec * 1000000000) 2 "f" = some m' ∧
      m'.name = m.name ∧ m'.fields = m.fields ∧ m'.timeSec = m.timeSec ∧
      (tagsGet [] "machine_id" = "" → m' = m) :=
  C8_idempotent_up_to_id_tag "foo" [] 0 2 "f" (by decide)

/-- `List.find?` returns the first element satisfying the predicate:
everything before it fails the predicate. -/
theorem find?_of_prefix_fails {α : Type} {p : α → Bool} (pre : List α)
    (r : α) (post : List α) (hpre : ∀ x ∈ pre, p x = false)
    (hr : p r = true) : (pre ++ r :: post).find? p = some r := by
  induction pre with
  | nil => simp [List.find?_cons, hr]
  | cons a l ih =>
    have ha : p a = false := hpre a (by simp)
    simp only [List.cons_append, List.find?_cons, ha]
    exact ih fun x hx => hpre x (by simp [hx])

/-- C2 as stated is false on both halves. The sync.Once of
HandleResponse fires on the first 2xx-or-4xx completion, so with the
statuses {503, 200, 400} arriving in the order 400, 200, 503 the caller
sees the 400, not the 200 success; and with {503, 502, 504} no response
qualifies, the drain loop keeps the last completion in errResponse, so
the order 503, 502, 504 shows the caller a 504, not a 503. -/
theorem C2_counterexample :
    reconcile [resp 400, resp 200, resp 503] = .pass (resp 400) ∧
    Reply.pass (resp 400) ≠ .status 204 ∧
    reconcile [resp 503, resp 502, resp 504] = .pass (resp 504) ∧
    Reply.pass (resp 504) ≠ .pass (resp 503) := by
  refine ⟨by decide, by decide, by decide, by decide⟩

/-- C2 amended: the first response completing with a 2xx or 4xx status
determines the caller-visible reply — a 2xx as a bare 204 no-content, a
4xx passed through. With {503, 200, 400} the caller therefore sees the
success exactly when the 200 completes before the 400 (as in the
completion order 503, 200, 400 named by the spec). When no completion
is a 2xx or 4xx (e.g. {503, 502, 504}), the caller sees the
last-completing response, a 503 only when the 503 completes last. -/
theorem C2_first_qualifying_wins :
    reconcile [resp 503, resp 200, resp 400] = .status 204 ∧
    (∀ (pre post : List RespData) (r : RespData),
        (∀ x ∈ pre, qualifies x = false) → qualifies r = true →
        r.statusCode / 100 = 2 →
        reconcile (pre ++ r :: post) = .status 204) ∧
    (∀ (pre post : List RespData) (r : RespData),
        (∀ x ∈ pre, qualifies x = false) → qualifies r = true →
        r.statusCode / 100 = 4 →
        reconcile (pre ++ r :: post) = .pass r) ∧
    (∀ (rs : List RespData) (r : RespData),
        (∀ x ∈ rs, qualifies x = false) → rs.getLast? = some r →
        reconcile rs = .pass r) := by
  refine ⟨by decide, ?_, ?_, ?_⟩
  · intro pre post r hpre hr h2
    simp [reconcile, find?_of_prefix_fails pre r post hpre hr, h2]
  · intro pre post r hpre hr h4
    simp [reconcile, find?_of_prefix_fails pre r post hpre hr, h4]
  · intro rs r hrs hlast
    have hnone : rs.find? qualifies = none :=
      List.find?_eq_none.mpr (by intro x hx; simp [hrs x hx])
    simp [reconcile, hnone, hlast]

/-- Witness for C2 (amended) at concrete completion orders. -/
theorem C2_first_qualifying_wins_witness :
    reconcile ([resp 503] ++ resp 404 :: [resp 200]) = .pass (resp 404) ∧
    reconcile [resp 503, resp 502] = .pass (resp 502) :=
  ⟨C2_first_qualifying_wins.2.2.1 [resp 503] [resp 200] (resp 404)
      (by decide) (by decide) (by decide),
   C2_first_qualifying_wins.2.2.2 [resp 503, resp 502] (resp 502)
      (by decide) (by decide)⟩

/-- C4 (code bug): ServeHTTP reads the source-type header as
`r.Header["X-Gocky-Tag-Source-Type"][0]` without the nil check that its
sibling identity headers get, so a write request without that header
panics with an index-out-of-range runtime error instead of proceeding
with source type "unix". At a concrete request lacking the header the
modelled handler faults before dispatching anything; with the header
present and a value other than "windows" the handler does use "unix". -/
theorem C4_missing_source_type_header_faults :
    (serveWrite ⟨0, 1000, false, false, false, []⟩
        [("X-Gocky-Tag-Machine-Id", ["m1"])] "db" fmt0 [] []
      = { replies := [], dispatches := [], metering := [],
          sourceType := none, faulted := true }) ∧
    computeSourceType [("X-Gocky-Tag-Source-Type", ["linux"]),
        ("X-Gocky-Tag-Machine-Id", ["m1"])] = some "unix" := by
  refine ⟨by decide, by decide⟩

/-- C5 (code bug): on a gzip-encoded request whose body fails gzip
decoding, ServeHTTP writes the 400 JSON error, but the error branch is
missing a `return`: the handler continues with the nil `*gzip.Reader`
and panics at `bodyBuf.ReadFrom`. No backend is contacted — the panic
strikes before any parsing or dispatch — but the request is not
terminated cleanly as the claim asserts. -/
theorem C5_gzip_error_then_fault :
    gzipBody "gzip" none [] = ([.jsonErr 400 "unable to decode gzip body"], none) ∧
    readBody (gzipBody "gzip" none []).2 = .error () :=
  ⟨rfl, rfl⟩

/-- C6: when the absolute per-request maximum is positive and the total
datapoint count of the request exceeds it, the handler replies with a
bare 204 no-content and dispatches nothing to any backend — the
metering map is also untouched, since the cap check precedes the
metering update. (The hypotheses place the request past the identity
check, which precedes the cap check in the handler.) -/
theorem C6_cap_rejects_whole_request (cfg : RelayCfg) (hdrs : Headers)
    (db : String) (fmt : GoFloat → Bytes) (points : List GoPoint)
    (mm : Metering)
    (hreach : ¬(headersGet hdrs "X-Gocky-Tag-Machine-Id" = [] ∧ cfg.dropUnauthorized))
    (hcap : cfg.maxDatapointsPerRequest > 0)
    (hexceed : ((parseRequest fmt cfg.splitRequestPerDatapoints points).2 : Int)
        > cfg.maxDatapointsPerRequest) :
    serveWrite cfg hdrs db fmt points mm
      = { replies := [.status 204], dispatches := [], metering := mm,
          sourceType := none, faulted := false } := by
  simp only [serveWrite]
  rw [if_neg hreach, if_pos ⟨hcap, hexceed⟩]

/-- Witness for C6: a two-datapoint request against a cap of 1. -/
theorem C6_cap_rejects_whole_request_witness :
    serveWrite ⟨1, 10, false, false, false, [⟨"b1", "influxdb"⟩]⟩
        [("X-Gocky-Tag-Machine-Id", ["m1"])] "db" fmt0 [twoFieldPt 107] []
      = { replies := [.status 204], dispatches := [], metering := [],
          sourceType := none, faulted := false } :=
  C6_cap_rejects_whole_request _ _ _ _ _ _ (by decide) (by decide) (by decide)

/-- Setting a key makes it readable: first-match lookup after a
first-match update. -/
theorem listGet_listSet_self {β : Type} (l : List (String × β))
    (k : String) (v : β) : listGet (listSet l k v) k = some v := by
  induction l with
  | nil => simp [listSet, listGet]
  | cons e rest ih =>
    cases hb : (e.1 == k) with
    | true => simp [listSet, listGet, hb]
    | false => simpa [listSet, listGet, List.find?_cons, hb] using ih

/-- Lookup in the empty map. -/
theorem listGet_nil {β : Type} (k : String) :
    listGet ([] : List (String × β)) k = none := rfl

/-- Setting one key leaves every other key unchanged. -/
theorem listGet_listSet_ne {β : Type} (l : List (String × β))
    (k k' : String) (v : β) (h : k' ≠ k) :
    listGet (listSet l k v) k' = listGet l k' := by
  have hks : ¬ k = k' := fun e => h e.symm
  induction l with
  | nil => simp [listSet, listGet, hks]
  | cons e rest ih =>
    cases hb : (e.1 == k) with
    | true =>
      have he : e.1 = k := by simpa using hb
      have h2 : ¬ e.1 = k' := by rw [he]; exact hks
      simp [listSet, listGet, List.find?_cons, hb, hks, h2]
    | false =>
      cases hb' : (e.1 == k') with
      | true => simp [listSet, listGet, List.find?_cons, hb, hb']
      | false => simpa [listSet, listGet, List.find?_cons, hb, hb'] using ih

/-- The metering update increments exactly the addressed counter. -/
theorem meteringVal_add_self (mm : Metering) (org mach : String) (n : Int) :
    meteringVal (meteringAdd mm org mach n) org mach
      = meteringVal mm org mach + n := by
  cases ho : listGet mm org with
  | none =>
    simp [meteringAdd, meteringVal, ho, listGet_nil, listGet_listSet_self]
  | some i =>
    cases hi : listGet i mach with
    | none => simp [meteringAdd, meteringVal, ho, hi, listGet_listSet_self]
    | some v => simp [meteringAdd, meteringVal, ho, hi, listGet_listSet_self]

/-- The metering update leaves every other counter unchanged. -/
theorem meteringVal_add_frame (mm : Metering) (org mach o m : String)
    (n : Int) (h : ¬(o = org ∧ m = mach)) :
    meteringVal (meteringAdd mm org mach n) o m = meteringVal mm o m := by
  by_cases ho : o = org
  · subst ho
    have hm : m ≠ mach := fun hm => h ⟨rfl, hm⟩
    cases hmm : listGet mm o with
    | none =>
      simp [meteringAdd, meteringVal, hmm, listGet_nil, listGet_listSet_self,
        listGet_listSet_ne _ _ _ _ hm]
    | some i =>
      cases hi : listGet i mach with
      | none =>
        simp [meteringAdd, meteringVal, hmm, hi, listGet_listSet_self,
          listGet_listSet_ne _ _ _ _ hm]
      | some v =>
        simp [meteringAdd, meteringVal, hmm, hi, listGet_listSet_self,
          listGet_listSet_ne _ _ _ _ hm]
  · simp [meteringAdd, meteringVal, listGet_listSet_ne _ _ _ _ ho]

/-- C10: with metering enabled, a write request that reaches the
metering section changes the shared metering map exactly at the entry
keyed by its org id and machine id, incrementing that counter by the
number of parsed points; every other counter is unchanged. The update
survives even a later fault of the request (the source-type panic
strikes after the metering section). -/
theorem C10_metering_single_entry (cfg : RelayCfg) (hdrs : Headers)
    (db : String) (fmt : GoFloat → Bytes) (points : List GoPoint)
    (mm : Metering) (org mach : String)
    (hm : cfg.enableMetering = true)
    (hreach : ¬(headersGet hdrs "X-Gocky-Tag-Machine-Id" = [] ∧ cfg.dropUnauthorized))
    (hcap : ¬(cfg.maxDatapointsPerRequest > 0 ∧
        ((parseRequest fmt cfg.splitRequestPerDatapoints points).2 : Int)
          > cfg.maxDatapointsPerRequest))
    (hmach : mach = (headersGet hdrs "X-Gocky-Tag-Machine-Id").headD "")
    (horg : org = (if headersGet hdrs "X-Gocky-Tag-Org-Id" = [] then "Unauthorized"
        else (headersGet hdrs "X-Gocky-Tag-Org-Id").headD "")) :
    (serveWrite cfg hdrs db fmt points mm).metering
        = meteringAdd mm org mach points.length ∧
    meteringVal (serveWrite cfg hdrs db fmt points mm).metering org mach
        = meteringVal mm org mach + points.length ∧
    (∀ o m : String, ¬(o = org ∧ m = mach) →
      meteringVal (serveWrite cfg hdrs db fmt points mm).metering o m
        = meteringVal mm o m) := by
  subst hmach horg
  have hmet : (serveWrite cfg hdrs db fmt points mm).metering
      = meteringAdd mm
          (if headersGet hdrs "X-Gocky-Tag-Org-Id" = [] then "Unauthorized"
            else (headersGet hdrs "X-Gocky-Tag-Org-Id").headD "")
          ((headersGet hdrs "X-Gocky-Tag-Machine-Id").headD "")
          points.length := by
    simp only [serveWrite]
    rw [if_neg hreach, if_neg hcap]
    cases hst : computeSourceType hdrs <;> simp [hm]
  exact ⟨hmet,
    by rw [hmet]; exact meteringVal_add_self _ _ _ _,
    fun o m h => by rw [hmet]; exact meteringVal_add_frame _ _ _ _ _ _ h⟩

/-- Witness for C10 at a concrete request and metering map. -/
theorem C10_metering_single_entry_witness :
    (serveWrite ⟨0, 10, false, true, false, []⟩
        [("X-Gocky-Tag-Machine-Id", ["m1"]), ("X-Gocky-Tag-Org-Id", ["o1"])]
        "db" fmt0 [oneFieldPt 105] [("o1", [("m1", 3)])]).metering
        = meteringAdd [("o1", [("m1", 3)])] "o1" "m1" 1 ∧
    meteringVal (serveWrite ⟨0, 10, false, true, false, []⟩
        [("X-Gocky-Tag-Machine-Id", ["m1"]), ("X-Gocky-Tag-Org-Id", ["o1"])]
        "db" fmt0 [oneFieldPt 105] [("o1", [("m1", 3)])]).metering "o1" "m1"
        = meteringVal [("o1", [("m1", 3)])] "o1" "m1" + 1 ∧
    (∀ o m : String, ¬(o = "o1" ∧ m = "m1") →
      meteringVal (serveWrite ⟨0, 10, false, true, false, []⟩
          [("X-Gocky-Tag-Machine-Id", ["m1"]), ("X-Gocky-Tag-Org-Id", ["o1"])]
          "db" fmt0 [oneFieldPt 105] [("o1", [("m1", 3)])]).metering o m
        = meteringVal [("o1", [("m1", 3)])] o m) :=
  C10_metering_single_entry _ _ _ _ _ _ _ _
    rfl (by decide) (by decide) (by decide) (by decide)

/-- A serialized line is never empty: it ends with the newline byte. -/
theorem mkLine_ne_nil (fmt : GoFloat → Bytes) (p : GoPoint) :
    mkLine fmt p ≠ [] := by
  simp [mkLine]

/-- A skipped point (no counted field) leaves the loop state unchanged. -/
theorem prStep_skip (fmt : GoFloat → Bytes) (split : Int) (st : PRState)
    (p : GoPoint) (h : pointN fmt p = 0) : prStep fmt split st p = st := by
  simp [prStep, h]

/-- One loop step appends exactly the line of a contributing point to
the bytes held by the state, and nothing for a skipped point. -/
theorem stBytes_prStep (fmt : GoFloat → Bytes) (split : Int)
    (st : PRState) (p : GoPoint) :
    stBytes (prStep fmt split st p)
      = stBytes st ++ (if pointN fmt p = 0 then [] else mkLine fmt p) := by
  by_cases h0 : pointN fmt p = 0
  · simp [prStep, h0]
  · by_cases hc : st.left - ((pointN fmt p : Nat) : Int) ≥ 0
    · simp [prStep, h0, hc, stBytes]
    · simp [prStep, h0, hc, stBytes, List.map_append, List.flatten_append]

/-- Folding the loop over a point list appends exactly the serialized
lines of the contributing points, in order. -/
theorem stBytes_foldl (fmt : GoFloat → Bytes) (split : Int)
    (pts : List GoPoint) : ∀ st : PRState,
    stBytes (List.foldl (prStep fmt split) st pts)
      = stBytes st ++ (contribLines fmt pts).flatten := by
  induction pts with
  | nil => intro st; simp [contribLines]
  | cons p rest ih =>
    intro st
    rw [List.foldl_cons, ih, stBytes_prStep]
    by_cases h0 : pointN fmt p = 0
    · simp [contribLines, List.filter_cons, h0]
    · simp [contribLines, List.filter_cons, h0]

/-- The batches emitted by the epilogue hold exactly the bytes of the
final loop state. -/
theorem prFinal_bytes (st : PRState) :
    ((prFinal st).map Batch.bytes).flatten = stBytes st := by
  by_cases h : st.cur = []
  · simp [prFinal, stBytes, h]
  · have hl : st.cur.length > 0 := List.length_pos.mpr h
    simp [prFinal, stBytes, hl, List.map_append, List.flatten_append]

/-- The field loop counts nothing and serializes nothing when no field
is a float or integer under a valid UTF-8 key. -/
theorem countFields_all_skipped (fmt : GoFloat → Bytes) (fs : List GoField)
    (h : ∀ f ∈ fs, numericWithValidKey f = false) :
    countFields fmt fs = (0, []) := by
  induction fs with
  | nil => rfl
  | cons f rest ih =>
    have hf := h f (by simp)
    have hrest := ih (fun x hx => h x (by simp [hx]))
    unfold countFields
    rw [hrest]
    cases hv : f.val with
    | float v =>
      have hk : utf8Valid f.key = false := by
        simpa [numericWithValidKey, hv] using hf
      simp [hk]
    | integer v =>
      have hk : utf8Valid f.key = false := by
        simpa [numericWithValidKey, hv] using hf
      simp [hk]
    | otherType => simp

/-- C9: a point none of whose fields is a float or integer value under
a valid UTF-8 field key contributes nothing to the batching: its field
count is zero, and batching a request with such a point inserted
anywhere yields exactly the same batches and the same total datapoint
count as batching the request without it. -/
theorem C9_nonnumeric_points_omitted (fmt : GoFloat → Bytes) (split : Int)
    (p : GoPoint) (hp : ∀ f ∈ p.fields, numericWithValidKey f = false)
    (l1 l2 : List GoPoint) :
    pointN fmt p = 0 ∧
    parseRequestB fmt split (l1 ++ p :: l2)
      = parseRequestB fmt split (l1 ++ l2) := by
  have h0 : pointN fmt p = 0 := by
    unfold pointN
    rw [countFields_all_skipped fmt p.fields hp]
  refine ⟨h0, ?_⟩
  simp only [parseRequestB, List.foldl_append, List.foldl_cons,
    prStep_skip fmt split _ p h0]

/-- Witness for C9: a point with a string field and a float field under
the invalid key byte 0xFF vanishes from the batching. -/
theorem C9_nonnumeric_points_omitted_witness :
    pointN fmt0 noNumPt = 0 ∧
    parseRequestB fmt0 5 ([] ++ noNumPt :: [oneFieldPt 109])
      = parseRequestB fmt0 5 ([] ++ [oneFieldPt 109]) :=
  C9_nonnumeric_points_omitted fmt0 5 noNumPt (by decide) [] [oneFieldPt 109]

/-- C1 as stated is false: with split threshold 3 and three points each
contributing two datapoints (total N = 6), no two two-datapoint lines
ever fit one batch of three, so the loop emits three batches while
ceil(N/k) = 2. -/
theorem C1_counterexample :
    (parseRequest fmt0 3 [twoFieldPt 100, twoFieldPt 101, twoFieldPt 102]).2 = 6 ∧
    (parseRequest fmt0 3 [twoFieldPt 100, twoFieldPt 101, twoFieldPt 102]).1.length = 3 ∧
    (3 : Nat) ≠ (6 + 3 - 1) / 3 := by
  refine ⟨by decide, by decide, by decide⟩

/-- One unit-weight step preserves the loop invariant. -/
theorem prStep_unit_inv (fmt : GoFloat → Bytes) (kn : Nat) (hk : 1 ≤ kn)
    (st : PRState) (p : GoPoint) (hp : pointN fmt p ≤ 1)
    (hinv : PRInv kn st) : PRInv kn (prStep fmt (kn : Int) st p) := by
  obtain ⟨h1, h2, h3, h4, h5⟩ := hinv
  rcases Nat.eq_zero_or_pos (pointN fmt p) with h0 | hpos
  · rw [prStep_skip fmt _ st p h0]
    exact ⟨h1, h2, h3, h4, h5⟩
  · have hp1 : pointN fmt p = 1 := by omega
    have hne : ¬ (pointN fmt p = 0) := by omega
    by_cases hc : st.curN < kn
    · have hcond : st.left - ((pointN fmt p : Nat) : Int) ≥ 0 := by
        rw [hp1, h1]; omega
      simp only [prStep, if_neg hne, if_pos hcond]
      refine ⟨?_, ?_, ?_, h4, ?_⟩
      · dsimp only; omega
      · dsimp only; omega
      · dsimp only
        constructor
        · intro he
          exact absurd (List.append_eq_nil.mp he).2 (mkLine_ne_nil fmt p)
        · intro he
          exact absurd he (by omega)
      · dsimp only; omega
    · have hcN : st.curN = kn := by omega
      have hcond : ¬ (st.left - ((pointN fmt p : Nat) : Int) ≥ 0) := by
        rw [hp1, h1, hcN]; omega
      simp only [prStep, if_neg hne, if_neg hcond]
      refine ⟨?_, ?_, ?_, ?_, ?_⟩
      · rfl
      · dsimp only; omega
      · dsimp only
        constructor
        · intro he
          exact absurd he (mkLine_ne_nil fmt p)
        · intro he
          exact absurd he (by omega)
      · dsimp only
        intro b hb
        rcases List.mem_append.mp hb with hmem | hmem
        · exact h4 b hmem
        · have hb' : b = ⟨st.cur, st.curN⟩ := by simpa using hmem
          subst hb'
          refine ⟨hcN, ?_⟩
          intro hnil
          have : st.curN = 0 := h3.mp hnil
          omega
      · dsimp only
        simp only [List.length_append, List.length_singleton, Nat.mul_succ]
        omega

/-- Folding unit-weight points preserves the loop invariant. -/
theorem foldl_unit_inv (fmt : GoFloat → Bytes) (kn : Nat) (hk : 1 ≤ kn) :
    ∀ (pts : List GoPoint), (∀ p ∈ pts, pointN fmt p ≤ 1) →
      ∀ st : PRState, PRInv kn st →
        PRInv kn (List.foldl (prStep fmt (kn : Int)) st pts) := by
  intro pts
  induction pts with
  | nil => intro _ st hinv; simpa using hinv
  | cons p rest ih =>
    intro hunit st hinv
    rw [List.foldl_cons]
    exact ih (fun q hq => hunit q (List.mem_cons_of_mem _ hq)) _
      (prStep_unit_inv fmt kn hk st p (hunit p (List.mem_cons_self _ _)) hinv)

/-- C1 amended: when every point contributes at most one datapoint (one
counted numeric field per point) and the split threshold k is at least
one, parseRequest emits exactly ceil(N/k) batches for total datapoint
count N, every emitted batch holds at most k datapoints, and
concatenating the batches in order reproduces exactly the serialized
lines of the contributing points in their original order. (The
concatenation part holds for arbitrary points; the batch count does not
— see the counterexample — because a line carrying several datapoints
is never split and forces an early flush.) -/
theorem C1_batching_unit_points (split : Int) (hsplit : 1 ≤ split)
    (fmt : GoFloat → Bytes) (pts : List GoPoint)
    (hunit : ∀ p ∈ pts, pointN fmt p ≤ 1) :
    ((parseRequestB fmt split pts).1.length
        = ((parseRequestB fmt split pts).2 + split.toNat - 1) / split.toNat) ∧
    (∀ b ∈ (parseRequestB fmt split pts).1, b.count ≤ split.toNat) ∧
    ((parseRequestB fmt split pts).1.map Batch.bytes).flatten
        = (contribLines fmt pts).flatten := by
  lift split to Nat using (by omega : (0 : Int) ≤ split) with kn
  have hk : 1 ≤ kn := by omega
  simp only [Int.toNat_natCast]
  have hinit : PRInv kn (prInit (kn : Int)) :=
    ⟨by simp [prInit], by simp [prInit], by simp [prInit],
     by simp [prInit], by simp [prInit]⟩
  obtain ⟨h1, h2, h3, h4, h5⟩ :=
    foldl_unit_inv fmt kn hk pts hunit (prInit (kn : Int)) hinit
  have heq : parseRequestB fmt (kn : Int) pts
      = (prFinal (List.foldl (prStep fmt (kn : Int)) (prInit (kn : Int)) pts),
         (List.foldl (prStep fmt (kn : Int)) (prInit (kn : Int)) pts).total) :=
    rfl
  rw [heq]
  set st := List.foldl (prStep fmt (kn : Int)) (prInit (kn : Int)) pts with hst
  dsimp only
  refine ⟨?_, ?_, ?_⟩
  · by_cases hcur : st.cur = []
    · have hN : st.curN = 0 := h3.mp hcur
      have hfin : prFinal st = st.out := by
        simp [prFinal, hcur]
      have hdiv : (kn - 1) / kn = 0 := Nat.div_eq_of_lt (by omega)
      rw [hfin, h5, hN]
      have harith : kn * st.out.length + 0 + kn - 1
          = kn * st.out.length + (kn - 1) := by omega
      rw [harith, Nat.mul_add_div (by omega), hdiv]
      simp
    · have hN : 1 ≤ st.curN := by
        rcases Nat.eq_zero_or_pos st.curN with h | h
        · exact absurd (h3.mpr h) hcur
        · exact h
      have hfin : prFinal st = st.out ++ [⟨st.cur, st.curN⟩] := by
        simp [prFinal, List.length_pos.mpr hcur]
      have hdiv : (st.curN + kn - 1) / kn = 1 :=
        Nat.div_eq_of_lt_le (by omega) (by omega)
      rw [hfin, h5]
      have harith : kn * st.out.length + st.curN + kn - 1
          = kn * st.out.length + (st.curN + kn - 1) := by omega
      rw [harith, Nat.mul_add_div (by omega), hdiv]
      simp
  · intro b hb
    have hb2 : b ∈ st.out ++ [⟨st.cur, st.curN⟩] := by
      by_cases hcur : st.cur = []
      · rw [show prFinal st = st.out from by simp [prFinal, hcur]] at hb
        exact List.mem_append.mpr (Or.inl hb)
      · rwa [show prFinal st = st.out ++ [⟨st.cur, st.curN⟩] from by
          simp [prFinal, List.length_pos.mpr hcur]] at hb
    rcases List.mem_append.mp hb2 with hmem | hmem
    · exact le_of_eq (h4 b hmem).1
    · have hb' : b = ⟨st.cur, st.curN⟩ := by simpa using hmem
      subst hb'
      exact h2
  · rw [prFinal_bytes, hst, stBytes_foldl]
    rfl

/-- Witness for C1 (amended): five one-datapoint points at threshold 2
give three batches of counts 2, 2, 1. -/
theorem C1_batching_unit_points_witness :
    ((parseRequestB fmt0 2
        [oneFieldPt 100, oneFieldPt 101, oneFieldPt 102, oneFieldPt 103,
         oneFieldPt 104]).1.length
      = ((parseRequestB fmt0 2
        [oneFieldPt 100, oneFieldPt 101, oneFieldPt 102, oneFieldPt 103,
         oneFieldPt 104]).2 + (2 : Int).toNat - 1) / (2 : Int).toNat) ∧
    (∀ b ∈ (parseRequestB fmt0 2
        [oneFieldPt 100, oneFieldPt 101, oneFieldPt 102, oneFieldPt 103,
         oneFieldPt 104]).1, b.count ≤ (2 : Int).toNat) ∧
    ((parseRequestB fmt0 2
        [oneFieldPt 100, oneFieldPt 101, oneFieldPt 102, oneFieldPt 103,
         oneFieldPt 104]).1.map Batch.bytes).flatten
      = (contribLines fmt0
        [oneFieldPt 100, oneFieldPt 101, oneFieldPt 102, oneFieldPt 103,
         oneFieldPt 104]).flatten :=
  C1_batching_unit_points 2 (by omega) fmt0
    [oneFieldPt 100, oneFieldPt 101, oneFieldPt 102, oneFieldPt 103,
     oneFieldPt 104] (by decide)

end Relay
